import Mathlib

/-!
Verification development for the CBModem repository.

The repository provides two headers:
* `pc_interface.h` — the PC host packet interface (`pc_packet_interface`,
  `pc_packet`, `MAX_PC_P_SIZE`, the `UART_BAUDRATE` default guard);
* `i2c.h` — the declaration of the ESP32 I2C master driver `chl_i2c`
  (the implementation `.cpp` is not part of the sources, so the
  transaction engine is modelled from the specification).

Machine bytes (`uint8_t`) are embedded as `Nat` with explicit `< 256`
bounds where the claims depend on them.
-/

namespace CBModem

/-! ## PC packet interface (embedded from `pc_interface.h`) -/

/-- The constant value used at the start of every packet
(`pc_packet_interface::startByte = 0x7C`). -/
def startByte : Nat := 0x7C

/-- The `pc_packet` class from `pc_interface.h`: a 1-byte `type`, a 1-byte
`len`, a fixed 256-byte `data` array (modelled as a function on indices,
every cell a byte), and a 1-byte `checksum`.  The `uint8_t` typing of the
fields is carried as `< 256` bounds. -/
structure pc_packet where
  type : Nat
  len : Nat
  data : Nat → Nat
  checksum : Nat
  type_lt : type < 256
  len_lt : len < 256
  data_lt : ∀ i, data i < 256
  checksum_lt : checksum < 256

/-- `MAX_PC_P_SIZE` from `pc_interface.h`: start byte + type + length +
data (256-byte array) + checksum. -/
def MAX_PC_P_SIZE : Nat := 1 + 1 + 1 + 256 + 1

/-- The meaningful data bytes of a packet: the first `len` cells of the
`data` array. -/
def pc_packet.dataBytes (p : pc_packet) : List Nat :=
  (List.range p.len).map p.data

/-- The wire frame of a packet, as documented in `pc_interface.h`:
`StartByte | PacketType | PacketLength | PacketData | PacketChecksum`. -/
def pc_packet.frame (p : pc_packet) : List Nat :=
  startByte :: p.type :: p.len :: (p.dataBytes ++ [p.checksum])

/-! ## UART baudrate guard (embedded from `pc_interface.h`, lines 12–19)

The header contains

  `#if (!defined(UART_BUADRATE) || defined(__DOXYGEN__))`
  `#define UART_BAUDRATE (115200)`
  `#endif`

Note the guard tests the name `UART_BUADRATE` while the definition (and the
doc note) concern `UART_BAUDRATE`.  The model takes as input whether the
build system defined the misspelled macro `UART_BUADRATE`, whether
`__DOXYGEN__` is defined, and the value (if any) that the build system gave
to the macro `UART_BAUDRATE`; it returns the value `UART_BAUDRATE` holds
after the header is included (`none` means undefined; a `#define` inside
the taken branch makes the new value the one seen afterwards). -/
def uartBaudrateAfterInclude (buadrateDefined doxygenDefined : Bool)
    (buildBaudrate : Option Nat) : Option Nat :=
  if (!buadrateDefined) || doxygenDefined then some 115200 else buildBaudrate

/-! ## I2C master transaction engine

`i2c.h` only declares the class `chl_i2c`; the implementation file is not
among the sources, so the transaction engine below is modelled from the
specification (§3, §4.2–§4.4, §5, §7 of the spec), keeping the names of the
declared members where Lean allows it.  The result-code encoding is the one
documented in `i2c.h`: `0-ok; 1-nack; 2-timeout; 3-arb.lost;
4-no transaction`. -/

/-- Modelled from the spec: the Transaction State of a controller, one of
Idle, InProgress and the four terminal states (spec §3). -/
inductive TransactionState where
  | Idle
  | InProgress
  | CompletedOk
  | CompletedNack
  | CompletedTimeout
  | CompletedArbLost
deriving DecidableEq, Repr

/-- Whether a Transaction State is one of the four terminal states. -/
def TransactionState.isTerminal : TransactionState → Bool
  | .CompletedOk => true
  | .CompletedNack => true
  | .CompletedTimeout => true
  | .CompletedArbLost => true
  | _ => false

/-- Modelled from the spec: the hardware outcome the Interrupt Handler
classifies for a transaction (transaction-complete, ACK error, timeout,
arbitration lost — spec §4.3). -/
inductive HwOutcome where
  | hwOk
  | hwNack
  | hwTimeout
  | hwArbLost
deriving DecidableEq, Repr

/-- The terminal Transaction State recorded for a hardware outcome. -/
def outcomeState : HwOutcome → TransactionState
  | .hwOk => .CompletedOk
  | .hwNack => .CompletedNack
  | .hwTimeout => .CompletedTimeout
  | .hwArbLost => .CompletedArbLost

/-- The caller-visible Transaction Result Code for a Transaction State,
following the encoding documented in `i2c.h`: the four terminal states map
to 0–3 and a state with no completed transaction maps to
`4 - no transaction`. -/
def resultCodeOf : TransactionState → Nat
  | .CompletedOk => 0
  | .CompletedNack => 1
  | .CompletedTimeout => 2
  | .CompletedArbLost => 3
  | .Idle => 4
  | .InProgress => 4

/-- Modelled from the spec: the micro-events that change the Transaction
State (spec §3 invariants): a start of a new transaction from Idle, the
Interrupt Handler recording a terminal outcome, and the reset to Idle that
the next start performs on a completed controller. -/
inductive I2CEvent where
  | evStart
  | evTerminal (o : HwOutcome)
  | evReset
deriving DecidableEq, Repr

/-- Modelled from the spec: the Transaction State transition function.
`none` means the event is not enabled in the given state, and no
transition occurs. -/
def stepTrans : TransactionState → I2CEvent → Option TransactionState
  | .Idle, .evStart => some .InProgress
  | .InProgress, .evTerminal o => some (outcomeState o)
  | t, .evReset => if t.isTerminal then some .Idle else none
  | _, _ => none

/-- Modelled from the spec: starting a new transaction.  From Idle the
state moves to InProgress; from a terminal state the next start first
resets to Idle and then moves to InProgress; while InProgress no new
transaction may start (spec §3 invariants, §4.4). -/
def startTxnState : TransactionState → Option TransactionState
  | .InProgress => none
  | .Idle => stepTrans .Idle .evStart
  | t => (stepTrans t .evReset).bind (fun s => stepTrans s .evStart)

/-- Modelled from the spec: one low-level bus command staged in the 32-slot
command buffer (spec §4.2): start condition, address byte with R/W bit,
byte write (with or without ACK check), byte read, stop condition. -/
inductive I2CCmd where
  | cmdStart
  | cmdAddr (devaddr : Nat) (readBit : Bool) (check_ack : Bool)
  | cmdWriteByte (check_ack : Bool)
  | cmdReadByte
  | cmdStop
deriving DecidableEq, Repr

/-- The command buffer capacity: 32 command slots (`_ram_data`, "32
items", spec §3 and §4.2). -/
def cmdBufCapacity : Nat := 32

/-- Number of command slots a register-block write of `len` bytes needs:
start, address, register index byte, `len` payload bytes, stop. -/
def txCmdCount (len : Nat) : Nat := len + 4

/-- Number of command slots a register-block read of `len` bytes needs:
start, address+W, register index byte, repeated start, address+R, `len`
read bytes, stop. -/
def rxCmdCount (len : Nat) : Nat := len + 6

/-- Modelled from the spec: the Command Sequencer for a write
(`chl_i2c::_set_commands_tx`).  Builds start, address+W, the register
index byte, the payload byte commands and stop; returns `none` (an
`InvalidArgument` condition, spec §4.2) when the sequence would exceed the
32-slot command buffer. -/
def _set_commands_tx (devaddr startregnum : Nat) (len : Nat)
    (check_ack : Bool) : Option (List I2CCmd) :=
  let cmds := [I2CCmd.cmdStart, I2CCmd.cmdAddr devaddr false check_ack,
               I2CCmd.cmdWriteByte check_ack]
              ++ List.replicate len (I2CCmd.cmdWriteByte check_ack)
              ++ [I2CCmd.cmdStop]
  if cmds.length ≤ cmdBufCapacity then some cmds else none

/-- Modelled from the spec: the Command Sequencer for a read
(`chl_i2c::_set_commands_rx`).  Builds start, address+W, the register
index byte, a repeated start, address+R, the read byte commands and stop;
returns `none` (an `InvalidArgument` condition) when the sequence would
exceed the 32-slot command buffer. -/
def _set_commands_rx (devaddr startregnum : Nat) (len : Nat)
    (check_ack : Bool) : Option (List I2CCmd) :=
  let cmds := [I2CCmd.cmdStart, I2CCmd.cmdAddr devaddr false check_ack,
               I2CCmd.cmdWriteByte check_ack, I2CCmd.cmdStart,
               I2CCmd.cmdAddr devaddr true check_ack]
              ++ List.replicate len I2CCmd.cmdReadByte
              ++ [I2CCmd.cmdStop]
  if cmds.length ≤ cmdBufCapacity then some cmds else none

/-- Modelled from the spec: the observable state of one `chl_i2c`
controller instance — its Transaction State (`_last_transm_state`) and the
staged command buffer (`_ram_data`). -/
structure chl_i2c where
  _last_transm_state : TransactionState
  _ram_data : List I2CCmd
deriving DecidableEq, Repr

/-- Modelled from the spec: the constructor `chl_i2c(num, sckspdkhz,
...)` leaves the controller with no transaction ever run (Idle state,
empty command buffer). -/
def chl_i2c.init : chl_i2c := ⟨.Idle, []⟩

/-- Modelled from the spec: the result of a call to `i2c_write_regs` or
`i2c_read_regs` — either a Transaction Result Code (`code`) or the
`InvalidArgument` condition signalled when the request exceeds the command
buffer capacity (spec §4.2, §7). -/
inductive I2CCallResult where
  | code (n : Nat)
  | invalidArgument
deriving DecidableEq, Repr

/-- Whether a call result carries only one of the five documented
Transaction Result Codes (0–4). -/
def I2CCallResult.codeBounded : I2CCallResult → Bool
  | .code n => n ≤ 4
  | .invalidArgument => true

/-- Modelled from the spec: `chl_i2c::i2c_wait_for_transaction`.  If a
transaction is InProgress the caller blocks on the Completion Signal until
the Interrupt Handler records the terminal outcome `hw`, and the terminal
result is returned; if none is in progress the cached result of the most
recently completed transaction is returned (`4 - no transaction` when no
transaction has ever run, i.e. the state is still Idle).  Returns the
result code together with the controller state after the call. -/
def i2c_wait_for_transaction (c : chl_i2c) (hw : HwOutcome) :
    Nat × chl_i2c :=
  match stepTrans c._last_transm_state (.evTerminal hw) with
  | some t => (resultCodeOf t, { c with _last_transm_state := t })
  | none => (resultCodeOf c._last_transm_state, c)

/-- Modelled from the spec: `chl_i2c::i2c_write_regs`.  Rejects with the
busy/`NoTransaction`-class code 4 while a transaction is InProgress;
otherwise runs the Command Sequencer (failing with `InvalidArgument` if
the request exceeds the command buffer, before any hardware is touched),
stages the commands, sets the state to InProgress and — when `block` —
waits for the terminal outcome `hw`; when non-blocking it returns at once
with the in-progress indicator `0`. -/
def i2c_write_regs (c : chl_i2c) (devaddr startregnum : Nat)
    (buffer : List Nat) (len : Nat) (block check_ack : Bool)
    (hw : HwOutcome) : I2CCallResult × chl_i2c :=
  match startTxnState c._last_transm_state with
  | none => (.code 4, c)
  | some s1 =>
    match _set_commands_tx devaddr startregnum len check_ack with
    | none => (.invalidArgument, c)
    | some cmds =>
      let c1 : chl_i2c := ⟨s1, cmds⟩
      if block then
        let r := i2c_wait_for_transaction c1 hw
        (.code r.1, r.2)
      else (.code 0, c1)

/-- Modelled from the spec: `chl_i2c::i2c_read_regs`.  Symmetric to the
write, but always synchronous (there is no `block` parameter in the
declaration): rejects with code 4 while InProgress, fails with
`InvalidArgument` when the request exceeds the command buffer, otherwise
stages the commands, blocks until the terminal outcome `hw` and — on an Ok
result — returns the `len` bytes the hardware received (`busData` models
the bytes the addressed device puts on the bus).  Returns the call
result, the caller's buffer contents, and the controller state after the
call. -/
def i2c_read_regs (c : chl_i2c) (devaddr startregnum : Nat) (len : Nat)
    (check_ack : Bool) (hw : HwOutcome) (busData : Nat → Nat) :
    I2CCallResult × List Nat × chl_i2c :=
  match startTxnState c._last_transm_state with
  | none => (.code 4, [], c)
  | some s1 =>
    match _set_commands_rx devaddr startregnum len check_ack with
    | none => (.invalidArgument, [], c)
    | some cmds =>
      let c1 : chl_i2c := ⟨s1, cmds⟩
      let r := i2c_wait_for_transaction c1 hw
      let outBuf := if r.1 = 0 then (List.range len).map busData else []
      (.code r.1, outBuf, r.2)

/-- Modelled from the spec: the transitions the Transaction State invariant
allows (spec §3): Idle → InProgress on start, InProgress → a terminal
state recorded by the Interrupt Handler, and terminal → Idle on the next
start.  No other transition is allowed. -/
inductive AllowedTransition : TransactionState → TransactionState → Prop where
  | startFromIdle : AllowedTransition .Idle .InProgress
  | complete (t : TransactionState) (h : t.isTerminal = true) :
      AllowedTransition .InProgress t
  | resetFromTerminal (t : TransactionState) (h : t.isTerminal = true) :
      AllowedTransition t .Idle

/-! ## Completion Signal machine

Modelled from the spec (§3, §5): the binary semaphore `_i2c_transm_bsmph`
is given exactly once per transaction by the Interrupt Handler
(`_i2c_intr_hdlr`) when the hardware reaches a terminal state, and taken
exactly once by the coordinator that is waiting.  The machine below pairs
the Transaction State with the semaphore count and records which actor
(interrupt handler or calling task) performs each event. -/

/-- Modelled from the spec: who performs an event — the Interrupt Handler
or the calling task. -/
inductive Actor where
  | isrActor
  | taskActor
deriving DecidableEq, Repr

/-- Modelled from the spec: the events of one controller involving the
Completion Signal: a task starts a transaction, the Interrupt Handler
records a terminal outcome and gives the semaphore, the waiting task
consumes (takes) the semaphore, and the task resets the completed
controller when it starts the next transaction. -/
inductive SemEvent where
  | seStart
  | seTerminal (o : HwOutcome)
  | seConsume
  | seReset
deriving DecidableEq, Repr

/-- The actor that performs each event: only the terminal-outcome event
runs in the Interrupt Handler; everything else runs in the calling task. -/
def semEventActor : SemEvent → Actor
  | .seTerminal _ => .isrActor
  | _ => .taskActor

/-- Whether an event gives (releases) the Completion Signal. -/
def SemEvent.isGive : SemEvent → Bool
  | .seTerminal _ => true
  | _ => false

/-- Whether an event takes (consumes) the Completion Signal. -/
def SemEvent.isTake : SemEvent → Bool
  | .seConsume => true
  | _ => false

/-- Whether an event starts a new transaction. -/
def SemEvent.isStart : SemEvent → Bool
  | .seStart => true
  | _ => false

/-- The Transaction State paired with the binary semaphore count of the
Completion Signal. -/
structure SemState where
  ts : TransactionState
  sem : Nat
deriving DecidableEq, Repr

/-- Modelled from the spec: one step of the Completion Signal machine.
A transaction starts from Idle with the signal empty; the Interrupt
Handler moves InProgress to a terminal state and gives the signal; the
waiting task takes the signal once it is available; the next start resets
a completed controller whose signal has been consumed.  `none` means the
event is not enabled. -/
def semStep (s : SemState) (e : SemEvent) : Option SemState :=
  match e with
  | .seStart =>
      if s.ts = .Idle ∧ s.sem = 0 then some ⟨.InProgress, 0⟩ else none
  | .seTerminal o =>
      if s.ts = .InProgress ∧ s.sem = 0 then some ⟨outcomeState o, 1⟩ else none
  | .seConsume =>
      if s.ts.isTerminal = true ∧ s.sem = 1 then some ⟨s.ts, 0⟩ else none
  | .seReset =>
      if s.ts.isTerminal = true ∧ s.sem = 0 then some ⟨.Idle, 0⟩ else none

/-- Run of the Completion Signal machine over a list of events; fails if
some event is not enabled. -/
def semRun : SemState → List SemEvent → Option SemState
  | s, [] => some s
  | s, e :: es =>
    match semStep s e with
    | none => none
    | some s1 => semRun s1 es

/-- How many events of a run give the Completion Signal. -/
def givesCount (es : List SemEvent) : Nat :=
  es.countP (fun e => e.isGive)

/-- How many events of a run take the Completion Signal. -/
def takesCount (es : List SemEvent) : Nat :=
  es.countP (fun e => e.isTake)

end CBModem

namespace CBModem

/-! ## Helper lemmas about the I2C model -/

/-- Every Transaction Result Code is at most 4. -/
theorem resultCodeOf_le (t : TransactionState) : resultCodeOf t ≤ 4 := by
  cases t <;> simp [resultCodeOf]

/-- The state the Interrupt Handler records for an outcome is terminal. -/
theorem outcomeState_isTerminal (o : HwOutcome) :
    (outcomeState o).isTerminal = true := by
  cases o <;> rfl

/-- Starting a transaction succeeds, and lands in InProgress, from every
state other than InProgress. -/
theorem startTxnState_of_ne (s : TransactionState) (h : s ≠ .InProgress) :
    startTxnState s = some .InProgress := by
  cases s <;> first
    | exact absurd rfl h
    | rfl

/-- Waiting on a controller whose transaction is in progress returns the
terminal result of the delivered outcome and records the terminal state. -/
theorem wait_inProgress (c : chl_i2c) (hw : HwOutcome)
    (h : c._last_transm_state = .InProgress) :
    i2c_wait_for_transaction c hw =
      (resultCodeOf (outcomeState hw),
       { c with _last_transm_state := outcomeState hw }) := by
  simp [i2c_wait_for_transaction, h, stepTrans]

/-- Waiting on a controller with no transaction in progress returns the
cached result and leaves the controller unchanged. -/
theorem wait_notInProgress (c : chl_i2c) (hw : HwOutcome)
    (h : c._last_transm_state ≠ .InProgress) :
    i2c_wait_for_transaction c hw = (resultCodeOf c._last_transm_state, c) := by
  unfold i2c_wait_for_transaction
  cases hs : c._last_transm_state <;> simp_all [stepTrans, TransactionState.isTerminal]

/-- The result of a wait is always one of the five codes 0–4. -/
theorem wait_result_le (c : chl_i2c) (hw : HwOutcome) :
    (i2c_wait_for_transaction c hw).1 ≤ 4 := by
  unfold i2c_wait_for_transaction
  cases h : stepTrans c._last_transm_state (.evTerminal hw) <;>
    simp [resultCodeOf_le]

/-- The write Command Sequencer succeeds exactly when the command sequence
fits the 32-slot buffer. -/
theorem set_commands_tx_eq_none_iff (devaddr startregnum len : Nat)
    (check_ack : Bool) :
    _set_commands_tx devaddr startregnum len check_ack = none ↔
      cmdBufCapacity < txCmdCount len := by
  simp [_set_commands_tx, cmdBufCapacity, txCmdCount]
  omega

/-- The read Command Sequencer succeeds exactly when the command sequence
fits the 32-slot buffer. -/
theorem set_commands_rx_eq_none_iff (devaddr startregnum len : Nat)
    (check_ack : Bool) :
    _set_commands_rx devaddr startregnum len check_ack = none ↔
      cmdBufCapacity < rxCmdCount len := by
  simp [_set_commands_rx, cmdBufCapacity, rxCmdCount]
  omega

/-- Unfolding a run of the Completion Signal machine over an enabled
event. -/
theorem semRun_cons (s : SemState) (e : SemEvent) (es : List SemEvent)
    (s1 : SemState) (h : semStep s e = some s1) :
    semRun s (e :: es) = semRun s1 es := by
  simp [semRun, h]

/-- A run of the Completion Signal machine from the consumed Idle state
that never starts a transaction is empty. -/
theorem semRun_idle_no_start (es : List SemEvent) (s' : SemState)
    (h : semRun ⟨.Idle, 0⟩ es = some s')
    (hns : ∀ e ∈ es, e.isStart = false) :
    es = [] ∧ s' = ⟨.Idle, 0⟩ := by
  cases es with
  | nil => simpa [semRun] using h.symm
  | cons e es =>
    exfalso
    have he := hns e (by simp)
    cases e <;>
      simp_all [semRun, semStep, SemEvent.isStart, TransactionState.isTerminal]

/-! ## Theorems about the PC packet interface -/

/-- C7: every host-link packet frame is
`StartByte(0x7C) | PacketType(1B) | PacketLength(1B) | PacketData(0–256B) | Checksum(1B)`,
and the maximum total frame size is `MAX_PC_P_SIZE = 1+1+1+256+1 = 260`
bytes: the frame decomposes in exactly that order, the data segment holds
between 0 and 256 bytes, and the whole frame never exceeds 260 bytes. -/
theorem pc_frame_format_and_max_size (p : pc_packet) :
    startByte = 0x7C ∧
    p.frame = [startByte] ++ [p.type] ++ [p.len] ++ p.dataBytes ++ [p.checksum] ∧
    p.dataBytes.length = p.len ∧
    p.dataBytes.length ≤ 256 ∧
    p.frame.length ≤ MAX_PC_P_SIZE ∧
    MAX_PC_P_SIZE = 1 + 1 + 1 + 256 + 1 := by
  have hlen : p.dataBytes.length = p.len := by
    simp [pc_packet.dataBytes]
  refine ⟨rfl, by simp [pc_packet.frame], hlen, ?_, ?_, rfl⟩
  · exact hlen ▸ Nat.le_of_lt (Nat.lt_of_lt_of_le p.len_lt (by norm_num))
  · have : p.frame.length = p.len + 4 := by
      simp [pc_packet.frame, hlen]
    rw [this]
    have := p.len_lt
    simp [MAX_PC_P_SIZE]
    omega

/-- C10: the `len` field of a `pc_packet` is a single byte, so the packet
data length is at most 255 and never reaches the 256-byte capacity of the
`data` array; consequently no constructible packet attains the 260-byte
`MAX_PC_P_SIZE` maximum. -/
theorem pc_packet_len_lt_256 (p : pc_packet) :
    p.len ≤ 255 ∧
    p.dataBytes.length < 256 ∧
    p.frame.length < MAX_PC_P_SIZE := by
  have hl := p.len_lt
  have hlen : p.dataBytes.length = p.len := by
    simp [pc_packet.dataBytes]
  refine ⟨by omega, by omega, ?_⟩
  have : p.frame.length = p.len + 4 := by
    simp [pc_packet.frame, hlen]
  rw [this]
  simp [MAX_PC_P_SIZE]
  omega

/-! ## Theorems about the I2C transaction engine -/

/-- C1: `i2c_wait_for_transaction` returns the terminal result of the
delivered outcome when a transaction is InProgress; when no transaction is
in progress it returns the cached result of the most recently completed
transaction and leaves the controller unchanged, so two consecutive calls
after completion return the identical result; and when no transaction has
ever run (the controller is still Idle) it returns `NoTransaction` (4). -/
theorem i2c_wait_for_transaction_correct (c : chl_i2c) (hw hw2 : HwOutcome) :
    (c._last_transm_state = .InProgress →
      i2c_wait_for_transaction c hw =
        (resultCodeOf (outcomeState hw),
         { c with _last_transm_state := outcomeState hw })) ∧
    (c._last_transm_state ≠ .InProgress →
      i2c_wait_for_transaction c hw =
        (resultCodeOf c._last_transm_state, c)) ∧
    (c._last_transm_state = .Idle →
      (i2c_wait_for_transaction c hw).1 = 4) ∧
    (i2c_wait_for_transaction (i2c_wait_for_transaction c hw).2 hw2).1 =
      (i2c_wait_for_transaction c hw).1 := by
  refine ⟨fun h => wait_inProgress c hw h, fun h => wait_notInProgress c hw h,
    fun h => ?_, ?_⟩
  · rw [wait_notInProgress c hw (by rw [h]; intro hc; exact nomatch hc), h]
    rfl
  · by_cases h : c._last_transm_state = .InProgress
    · rw [wait_inProgress c hw h]
      rw [wait_notInProgress _ hw2 ?_]
      · intro hc
        have := outcomeState_isTerminal hw
        rw [show ({ c with _last_transm_state := outcomeState hw } :
              chl_i2c)._last_transm_state = outcomeState hw from rfl] at hc
        rw [hc] at this
        exact nomatch this
    · rw [wait_notInProgress c hw h]
      exact congrArg Prod.fst (wait_notInProgress c hw2 h)

/-- C1 witness: on a controller with a transaction in progress the wait
returns the Nack terminal result; on a freshly constructed controller the
wait returns 4 (`NoTransaction`) and leaves the controller unchanged. -/
theorem i2c_wait_for_transaction_correct_witness :
    i2c_wait_for_transaction ⟨.InProgress, []⟩ .hwNack =
      (1, ⟨.CompletedNack, []⟩) ∧
    i2c_wait_for_transaction chl_i2c.init .hwOk = (4, chl_i2c.init) ∧
    (i2c_wait_for_transaction chl_i2c.init .hwOk).1 = 4 :=
  ⟨(i2c_wait_for_transaction_correct ⟨.InProgress, []⟩ .hwNack .hwOk).1 rfl,
   (i2c_wait_for_transaction_correct chl_i2c.init .hwOk .hwOk).2.1 (by decide),
   (i2c_wait_for_transaction_correct chl_i2c.init .hwOk .hwOk).2.2.1 rfl⟩

/-- C2: the caller-visible Transaction Result Code returned by
`i2c_write_regs`, `i2c_read_regs` and `i2c_wait_for_transaction` is always
one of the five integers 0 (Ok), 1 (Nack), 2 (Timeout), 3
(ArbitrationLost), 4 (NoTransaction); no other value is ever returned. -/
theorem i2c_result_codes_bounded (c : chl_i2c) (devaddr startregnum : Nat)
    (buffer : List Nat) (len : Nat) (block check_ack : Bool)
    (hw : HwOutcome) (busData : Nat → Nat) :
    (i2c_wait_for_transaction c hw).1 ≤ 4 ∧
    (i2c_write_regs c devaddr startregnum buffer len block check_ack
        hw).1.codeBounded = true ∧
    (i2c_read_regs c devaddr startregnum len check_ack hw
        busData).1.codeBounded = true := by
  refine ⟨wait_result_le c hw, ?_, ?_⟩
  · unfold i2c_write_regs
    cases h1 : startTxnState c._last_transm_state with
    | none => simp [I2CCallResult.codeBounded]
    | some s1 =>
      cases h2 : _set_commands_tx devaddr startregnum len check_ack with
      | none => simp [I2CCallResult.codeBounded]
      | some cmds =>
        by_cases hb : block <;>
          simp [hb, I2CCallResult.codeBounded, wait_result_le]
  · unfold i2c_read_regs
    cases h1 : startTxnState c._last_transm_state with
    | none => simp [I2CCallResult.codeBounded]
    | some s1 =>
      cases h2 : _set_commands_rx devaddr startregnum len check_ack with
      | none => simp [I2CCallResult.codeBounded]
      | some cmds =>
        simp [I2CCallResult.codeBounded, wait_result_le]

/-- C3: a call to `i2c_write_regs` or `i2c_read_regs` made while the
Transaction State is InProgress returns the busy/`NoTransaction`-class
code 4 immediately and leaves the controller — its state and its command
buffer — unchanged. -/
theorem i2c_busy_rejection_immediate (c : chl_i2c)
    (devaddr startregnum : Nat) (buffer : List Nat) (len : Nat)
    (block check_ack : Bool) (hw : HwOutcome) (busData : Nat → Nat)
    (h : c._last_transm_state = .InProgress) :
    i2c_write_regs c devaddr startregnum buffer len block check_ack hw =
      (.code 4, c) ∧
    i2c_read_regs c devaddr startregnum len check_ack hw busData =
      (.code 4, [], c) := by
  have hs : startTxnState c._last_transm_state = none := by
    rw [h]; rfl
  constructor
  · unfold i2c_write_regs
    rw [hs]
  · unfold i2c_read_regs
    rw [hs]

/-- C3 witness: on a busy controller with a staged command, both calls
return code 4 and leave the controller untouched. -/
theorem i2c_busy_rejection_immediate_witness :
    i2c_write_regs ⟨.InProgress, [I2CCmd.cmdStart]⟩ 80 16 [1, 2] 2 true true
        .hwOk = (.code 4, ⟨.InProgress, [I2CCmd.cmdStart]⟩) ∧
    i2c_read_regs ⟨.InProgress, [I2CCmd.cmdStart]⟩ 80 16 2 true .hwOk
        (fun _ => 0) = (.code 4, [], ⟨.InProgress, [I2CCmd.cmdStart]⟩) :=
  i2c_busy_rejection_immediate ⟨.InProgress, [I2CCmd.cmdStart]⟩ 80 16 [1, 2]
    2 true true .hwOk (fun _ => 0) rfl

/-- C4: a `i2c_write_regs` or `i2c_read_regs` request whose command
sequence exceeds the 32-slot command buffer capacity fails fast with the
`InvalidArgument` condition before any hardware is touched: the controller
— its state and its command buffer — is returned unchanged. -/
theorem i2c_overlong_request_invalid_argument (c : chl_i2c)
    (devaddr startregnum : Nat) (buffer : List Nat) (len : Nat)
    (block check_ack : Bool) (hw : HwOutcome) (busData : Nat → Nat)
    (hbusy : c._last_transm_state ≠ .InProgress) :
    (cmdBufCapacity < txCmdCount len →
      i2c_write_regs c devaddr startregnum buffer len block check_ack hw =
        (.invalidArgument, c)) ∧
    (cmdBufCapacity < rxCmdCount len →
      i2c_read_regs c devaddr startregnum len check_ack hw busData =
        (.invalidArgument, [], c)) := by
  have hs := startTxnState_of_ne c._last_transm_state hbusy
  constructor
  · intro hlen
    have htx : _set_commands_tx devaddr startregnum len check_ack = none :=
      (set_commands_tx_eq_none_iff devaddr startregnum len check_ack).mpr hlen
    unfold i2c_write_regs
    rw [hs, htx]
  · intro hlen
    have hrx : _set_commands_rx devaddr startregnum len check_ack = none :=
      (set_commands_rx_eq_none_iff devaddr startregnum len check_ack).mpr hlen
    unfold i2c_read_regs
    rw [hs, hrx]

/-- C4 witness: a 100-byte request overflows the 32-slot command buffer
for both the write and the read path; both calls return `InvalidArgument`
and leave the freshly constructed controller unchanged. -/
theorem i2c_overlong_request_invalid_argument_witness :
    i2c_write_regs chl_i2c.init 80 16 [] 100 true true .hwOk =
      (.invalidArgument, chl_i2c.init) ∧
    i2c_read_regs chl_i2c.init 80 16 100 true .hwOk (fun _ => 0) =
      (.invalidArgument, [], chl_i2c.init) :=
  ⟨(i2c_overlong_request_invalid_argument chl_i2c.init 80 16 [] 100 true
      true .hwOk (fun _ => 0) (by decide)).1 (by decide),
   (i2c_overlong_request_invalid_argument chl_i2c.init 80 16 [] 100 true
      true .hwOk (fun _ => 0) (by decide)).2 (by decide)⟩

/-- C5: every transition the Transaction State machine actually performs
is one of the allowed ones: Idle → InProgress on start, InProgress → one
of the four terminal states, terminal → Idle on the next start; no other
transition ever occurs. -/
theorem i2c_state_transitions_allowed (s s' : TransactionState)
    (e : I2CEvent) (h : stepTrans s e = some s') : AllowedTransition s s' := by
  cases s with
  | Idle =>
    cases e with
    | evStart =>
      rw [show stepTrans .Idle .evStart = some .InProgress from rfl] at h
      cases h
      exact .startFromIdle
    | evTerminal o => exact nomatch h
    | evReset => exact nomatch h
  | InProgress =>
    cases e with
    | evStart => exact nomatch h
    | evTerminal o =>
      rw [show stepTrans .InProgress (.evTerminal o) =
            some (outcomeState o) from rfl] at h
      cases h
      exact .complete _ (outcomeState_isTerminal o)
    | evReset => exact nomatch h
  | CompletedOk =>
    cases e with
    | evStart => exact nomatch h
    | evTerminal o => exact nomatch h
    | evReset =>
      rw [show stepTrans .CompletedOk .evReset = some .Idle from rfl] at h
      cases h
      exact .resetFromTerminal _ rfl
  | CompletedNack =>
    cases e with
    | evStart => exact nomatch h
    | evTerminal o => exact nomatch h
    | evReset =>
      rw [show stepTrans .CompletedNack .evReset = some .Idle from rfl] at h
      cases h
      exact .resetFromTerminal _ rfl
  | CompletedTimeout =>
    cases e with
    | evStart => exact nomatch h
    | evTerminal o => exact nomatch h
    | evReset =>
      rw [show stepTrans .CompletedTimeout .evReset = some .Idle from rfl] at h
      cases h
      exact .resetFromTerminal _ rfl
  | CompletedArbLost =>
    cases e with
    | evStart => exact nomatch h
    | evTerminal o => exact nomatch h
    | evReset =>
      rw [show stepTrans .CompletedArbLost .evReset = some .Idle from rfl] at h
      cases h
      exact .resetFromTerminal _ rfl

/-- C5 witness: the start step from Idle is one of the allowed
transitions. -/
theorem i2c_state_transitions_allowed_witness :
    AllowedTransition .Idle .InProgress :=
  i2c_state_transitions_allowed .Idle .InProgress .evStart rfl

/-- C6: `i2c_read_regs` is synchronous — a call that is neither rejected
as busy nor refused as over-long returns only after the transaction
reaches a terminal state — and on an Ok (code 0) result the caller's
buffer holds exactly `len` bytes. -/
theorem i2c_read_regs_synchronous_exact (c : chl_i2c)
    (devaddr startregnum : Nat) (len : Nat) (check_ack : Bool)
    (hw : HwOutcome) (busData : Nat → Nat)
    (hbusy : c._last_transm_state ≠ .InProgress)
    (hfit : rxCmdCount len ≤ cmdBufCapacity) :
    ((i2c_read_regs c devaddr startregnum len check_ack hw
        busData).2.2._last_transm_state).isTerminal = true ∧
    ((i2c_read_regs c devaddr startregnum len check_ack hw busData).1 =
        .code 0 →
      (i2c_read_regs c devaddr startregnum len check_ack hw
          busData).2.1.length = len) := by
  have hs := startTxnState_of_ne c._last_transm_state hbusy
  obtain ⟨cmds, hcmds⟩ :
      ∃ cmds, _set_commands_rx devaddr startregnum len check_ack =
        some cmds := by
    cases h : _set_commands_rx devaddr startregnum len check_ack with
    | none =>
      exact absurd ((set_commands_rx_eq_none_iff devaddr startregnum len
        check_ack).mp h) (by omega)
    | some cmds => exact ⟨cmds, rfl⟩
  have hwait := wait_inProgress ⟨.InProgress, cmds⟩ hw rfl
  unfold i2c_read_regs
  rw [hs, hcmds]
  simp only [hwait]
  refine ⟨outcomeState_isTerminal hw, fun h0 => ?_⟩
  have : resultCodeOf (outcomeState hw) = 0 := by
    have := h0
    simp only [I2CCallResult.code.injEq] at this
    exact this
  simp [this]

/-- C6 witness: a 2-byte read on a fresh controller with an Ok outcome
ends in a terminal state and fills the buffer with exactly 2 bytes. -/
theorem i2c_read_regs_synchronous_exact_witness :
    ((i2c_read_regs chl_i2c.init 80 16 2 true .hwOk
        (fun _ => 7)).2.2._last_transm_state).isTerminal = true ∧
    (i2c_read_regs chl_i2c.init 80 16 2 true .hwOk
        (fun _ => 7)).2.1.length = 2 :=
  ⟨(i2c_read_regs_synchronous_exact chl_i2c.init 80 16 2 true .hwOk
      (fun _ => 7) (by decide) (by decide)).1,
   (i2c_read_regs_synchronous_exact chl_i2c.init 80 16 2 true .hwOk
      (fun _ => 7) (by decide) (by decide)).2 (by decide)⟩

/-- C8: in any run of the Completion Signal machine that carries one
transaction from InProgress to a consumed terminal state without starting
a new one, the signal is given exactly once and taken exactly once; and
giving is done only by the Interrupt Handler while taking is done only by
the calling task. -/
theorem completion_signal_once_per_transaction (es : List SemEvent)
    (s' : SemState) (hrun : semRun ⟨.InProgress, 0⟩ es = some s')
    (hterm : s'.ts.isTerminal = true) (hsem : s'.sem = 0)
    (hsingle : ∀ e ∈ es, e.isStart = false) :
    givesCount es = 1 ∧ takesCount es = 1 ∧
    (∀ e, e.isGive = true → semEventActor e = .isrActor) ∧
    (∀ e, e.isTake = true → semEventActor e = .taskActor) := by
  have hgive : ∀ e : SemEvent, e.isGive = true → semEventActor e = .isrActor := by
    intro e he
    cases e <;> simp_all [SemEvent.isGive, semEventActor]
  have htake : ∀ e : SemEvent, e.isTake = true → semEventActor e = .taskActor := by
    intro e he
    cases e <;> simp_all [SemEvent.isTake, semEventActor]
  suffices hmain : givesCount es = 1 ∧ takesCount es = 1 by
    exact ⟨hmain.1, hmain.2, hgive, htake⟩
  cases es with
  | nil =>
    simp [semRun] at hrun
    rw [← hrun] at hterm
    exact nomatch hterm
  | cons e1 rest =>
    cases e1 with
    | seStart =>
      simp [semRun, semStep] at hrun
    | seConsume =>
      simp [semRun, semStep, TransactionState.isTerminal] at hrun
    | seReset =>
      simp [semRun, semStep, TransactionState.isTerminal] at hrun
    | seTerminal o =>
      rw [semRun_cons _ _ _ _ (show semStep ⟨.InProgress, 0⟩ (.seTerminal o) =
            some ⟨outcomeState o, 1⟩ from by simp [semStep])] at hrun
      cases rest with
      | nil =>
        simp [semRun] at hrun
        rw [← hrun] at hsem
        exact nomatch hsem
      | cons e2 rest2 =>
        cases e2 with
        | seStart =>
          cases o <;> simp [semRun, semStep] at hrun
        | seTerminal o2 =>
          cases o <;> simp [semRun, semStep] at hrun
        | seReset =>
          cases o <;>
            simp [semRun, semStep, TransactionState.isTerminal] at hrun
        | seConsume =>
          rw [semRun_cons _ _ _ _ (show semStep ⟨outcomeState o, 1⟩ .seConsume =
                some ⟨outcomeState o, 0⟩ from by
              cases o <;>
                simp [semStep, outcomeState, TransactionState.isTerminal])] at hrun
          cases rest2 with
          | nil =>
            simp [givesCount, takesCount, List.countP_cons, SemEvent.isGive,
              SemEvent.isTake]
          | cons e3 rest3 =>
            cases e3 with
            | seStart =>
              have := hsingle (.seStart) (by simp)
              exact nomatch this
            | seTerminal o3 =>
              cases o <;> simp [semRun, semStep, outcomeState] at hrun
            | seConsume =>
              cases o <;>
                simp [semRun, semStep, outcomeState,
                  TransactionState.isTerminal] at hrun
            | seReset =>
              rw [semRun_cons _ _ _ _ (show semStep ⟨outcomeState o, 0⟩ .seReset =
                    some ⟨.Idle, 0⟩ from by
                  cases o <;>
                    simp [semStep, outcomeState,
                      TransactionState.isTerminal])] at hrun
              have hrest := semRun_idle_no_start rest3 s' hrun
                (fun e he => hsingle e (by simp [he]))
              rw [hrest.2] at hterm
              exact nomatch hterm

/-- C8 witness: the two-event run — the Interrupt Handler records an Ok
outcome and gives the signal, the waiting task takes it — gives and takes
the Completion Signal exactly once. -/
theorem completion_signal_once_per_transaction_witness :
    givesCount [SemEvent.seTerminal .hwOk, SemEvent.seConsume] = 1 ∧
    takesCount [SemEvent.seTerminal .hwOk, SemEvent.seConsume] = 1 :=
  ⟨(completion_signal_once_per_transaction
      [SemEvent.seTerminal .hwOk, SemEvent.seConsume] ⟨.CompletedOk, 0⟩
      (by decide) rfl rfl (by decide)).1,
   (completion_signal_once_per_transaction
      [SemEvent.seTerminal .hwOk, SemEvent.seConsume] ⟨.CompletedOk, 0⟩
      (by decide) rfl rfl (by decide)).2.1⟩

/-- C9 (code bug evaluation): when the build system supplies
`UART_BAUDRATE = 9600` (and does not define the misspelled `UART_BUADRATE`,
no Doxygen), the header still redefines `UART_BAUDRATE` to 115200 because
its guard tests the misspelled name `UART_BUADRATE`; the supplied value is
not kept, contradicting the header's own doc note. -/
theorem uart_baudrate_guard_typo_eval :
    uartBaudrateAfterInclude false false (some 9600) = some 115200 ∧
    (some 9600 : Option Nat) ≠ some 115200 := by
  exact ⟨rfl, by decide⟩

end CBModem
